import Mathlib

/-!
Shallow embedding of the Kartvisualisering core pipeline:
region tables (src/config.py, src/utils/trafikverket_regions.py), the
region resolver and aggregation pipeline (src/utils/data_utils.py,
src/utils/trafikverket_regions.py), custom groupings
(src/utils/region_groups.py, src/ui/custom_groups.py) and the
Trafikverket boundary merger (src/utils/trafikverket_regions.py).

Numeric values are modelled as rationals (the claims only involve exact
small arithmetic); a failed `pd.to_numeric(..., errors="coerce")`
conversion or a missing value is `none`.  Geometries are modelled
abstractly as finite sets of points (`Finset Nat`), with shapely's
`unary_union` as iterated set union, matching its set semantics.
-/

/-- `LAN_MAPPING` from src/config.py: the 21 county codes and names. -/
def LAN_MAPPING : List (String × String) :=
  [("01", "Stockholm"), ("03", "Uppsala"), ("04", "Södermanland"),
   ("05", "Östergötland"), ("06", "Jönköping"), ("07", "Kronoberg"),
   ("08", "Kalmar"), ("09", "Gotland"), ("10", "Blekinge"),
   ("12", "Skåne"), ("13", "Halland"), ("14", "Västra Götaland"),
   ("17", "Värmland"), ("18", "Örebro"), ("19", "Västmanland"),
   ("20", "Dalarna"), ("21", "Gävleborg"), ("22", "Västernorrland"),
   ("23", "Jämtland"), ("24", "Västerbotten"), ("25", "Norrbotten")]

/-- `NUTS2_MAPPING` from src/config.py: county name to NUTS-2 label. -/
def NUTS2_MAPPING : List (String × String) :=
  [("Stockholm", "SE11 Stockholm"),
   ("Uppsala", "SE12 Östra Mellansverige"),
   ("Södermanland", "SE12 Östra Mellansverige"),
   ("Östergötland", "SE12 Östra Mellansverige"),
   ("Örebro", "SE12 Östra Mellansverige"),
   ("Västmanland", "SE12 Östra Mellansverige"),
   ("Jönköping", "SE21 Småland med öarna"),
   ("Kronoberg", "SE21 Småland med öarna"),
   ("Kalmar", "SE21 Småland med öarna"),
   ("Gotland", "SE21 Småland med öarna"),
   ("Blekinge", "SE22 Sydsverige"),
   ("Skåne", "SE22 Sydsverige"),
   ("Halland", "SE23 Västsverige"),
   ("Västra Götaland", "SE23 Västsverige"),
   ("Värmland", "SE31 Norra Mellansverige"),
   ("Dalarna", "SE31 Norra Mellansverige"),
   ("Gävleborg", "SE31 Norra Mellansverige"),
   ("Västernorrland", "SE32 Mellersta Norrland"),
   ("Jämtland", "SE32 Mellersta Norrland"),
   ("Västerbotten", "SE33 Övre Norrland"),
   ("Norrbotten", "SE33 Övre Norrland")]

/-- `TRAFIKVERKET_REGIONS` from src/utils/trafikverket_regions.py:
county name to Trafikverket region, in source (dict insertion) order. -/
def TRAFIKVERKET_REGIONS : List (String × String) :=
  [("Skåne", "Syd"), ("Kronoberg", "Syd"), ("Blekinge", "Syd"),
   ("Västernorrland", "Norr"), ("Jämtland", "Norr"),
   ("Västerbotten", "Norr"), ("Norrbotten", "Norr"),
   ("Uppsala", "Mitt"), ("Södermanland", "Mitt"), ("Västmanland", "Mitt"),
   ("Värmland", "Mitt"), ("Örebro", "Mitt"), ("Dalarna", "Mitt"),
   ("Gävleborg", "Mitt"),
   ("Stockholm", "Öst"), ("Gotland", "Öst"),
   ("Halland", "Väst"), ("Västra Götaland", "Väst"),
   ("Jönköping", "Sydöst"), ("Kalmar", "Sydöst"), ("Östergötland", "Sydöst")]

/-- `TRAFIKVERKET_IDS` from src/utils/trafikverket_regions.py. -/
def TRAFIKVERKET_IDS : List (String × String) :=
  [("Syd", "26"), ("Norr", "27"), ("Mitt", "28"),
   ("Öst", "29"), ("Väst", "30"), ("Sydöst", "31")]

/-- Dict lookup (`d[k]` / `d.get(k)`) on an association list. -/
def dictGet (m : List (String × String)) (k : String) : Option String :=
  (m.find? (fun p => p.1 = k)).map (fun p => p.2)

/-- Python `str.isdigit()`: nonempty and every character a digit. -/
def pyIsDigit (s : String) : Bool :=
  !s.data.isEmpty && s.data.all (fun c => c.isDigit)

/-- Python `str.lower()` on a single character, on the alphabet that
occurs in this program (ASCII plus the Swedish letters Å, Ä, Ö). -/
def charLowerPy (c : Char) : Char :=
  if c = 'Å' then 'å' else if c = 'Ä' then 'ä'
  else if c = 'Ö' then 'ö' else c.toLower

/-- Python `str.lower()` on the alphabet used by this program. -/
def lowerPy (s : String) : String := ⟨s.data.map charLowerPy⟩

/-- The leading-zero normalisation applied to the region column in
`process_data` (src/utils/data_utils.py lines 62-64):
`lambda x: '0' + x if x.isdigit() and len(x) == 1 else x`. -/
def padRegion (x : String) : String :=
  if pyIsDigit x && x.length = 1 then "0" ++ x else x

/-- `map_to_region` from `process_data` (src/utils/data_utils.py lines
67-82): code lookup, then exact name match, then case-insensitive name
match over `LAN_MAPPING` in order, else return the input unchanged. -/
def map_to_region (input_region : String) : String :=
  match dictGet LAN_MAPPING input_region with
  | some name => name
  | none =>
    if LAN_MAPPING.any (fun p => p.2 = input_region) then input_region
    else
      match LAN_MAPPING.find? (fun p => lowerPy input_region = lowerPy p.2) with
      | some p => p.2
      | none => input_region

/-- The full resolver applied to a raw region identifier in
`process_data`: zero-padding (line 62-64) then `map_to_region`. -/
def resolveRegion (x : String) : String := map_to_region (padRegion x)

/-- The 21 canonical county names. -/
def lanNames : List String := LAN_MAPPING.map (fun p => p.2)

example : resolveRegion "1" = "Stockholm" := by decide
example : resolveRegion "stockholm" = "Stockholm" := by decide
example : resolveRegion "99" = "99" := by decide
example : resolveRegion "Atlantis" = "Atlantis" := by decide
example : resolveRegion "2" = "02" := by decide

/-- One input row of the uploaded table: the raw region identifier and
the value after `pd.to_numeric(..., errors="coerce")`; `none` is a
missing or non-numeric value (NaN). -/
structure RawRow where
  region : String
  value : Option ℚ
deriving DecidableEq, Repr

/-- Python `str.replace(" län", "")` at the character level: scan left
to right, skipping every occurrence of the four characters of " län".
(Defined structurally so proofs can evaluate it.) -/
def removeLan : List Char → List Char
  | ' ' :: 'l' :: 'ä' :: 'n' :: rest => removeLan rest
  | c :: rest => c :: removeLan rest
  | [] => []

/-- The name normalisation `x.replace(' län', '') if ' län' in x else x`
used by the Trafikverket code; the guard is redundant since `replace`
is the identity when the substring is absent. -/
def stripLan (s : String) : String := ⟨removeLan s.data⟩

/-- `map_to_trafikverket_region` (src/utils/trafikverket_regions.py
lines 124-138): strip the " län" suffix, look the name up in
`TRAFIKVERKET_REGIONS`, defaulting to `""`. -/
def map_to_trafikverket_region (county_name : String) : String :=
  (dictGet TRAFIKVERKET_REGIONS (stripLan county_name)).getD ""

/-- A row of `processed_df` after region mapping, NUTS-2 mapping and the
`dropna` on the value column in `process_data`. -/
structure ProcRow where
  region_name : String
  nuts2_region : Option String
  value : ℚ
deriving DecidableEq, Repr

/-- `process_data` lines 55-99: pad the region column, map it with
`map_to_region`, attach the NUTS-2 region, and drop rows whose value is
NaN (`region_name` is a string and never NaN, so the `dropna` on it
drops nothing). -/
def processedRows (rows : List RawRow) : List ProcRow :=
  rows.filterMap (fun r =>
    r.value.map (fun v =>
      let name := resolveRegion r.region
      ⟨name, dictGet NUTS2_MAPPING name, v⟩))

/-- The distinct keys of a list in first-appearance order, `seen`
accumulating the keys already emitted. -/
def uniqueKeysAux (seen : List String) : List String → List String
  | [] => []
  | k :: rest =>
    if seen.contains k then uniqueKeysAux seen rest
    else k :: uniqueKeysAux (k :: seen) rest

/-- The distinct keys of a list in first-appearance order. -/
def uniqueKeys (l : List String) : List String := uniqueKeysAux [] l

/-- Pandas `groupby(key)[val].mean().reset_index()` on a list of
(key, value) pairs: one row per distinct key, carrying the arithmetic
mean of that key's values.  (Pandas sorts the group keys; no claim
depends on row order, so keys are kept in first-appearance order and
every theorem about the output is stated membership-wise.) -/
def groupMean (l : List (String × ℚ)) : List (String × ℚ) :=
  (uniqueKeys (l.map (fun p => p.1))).map (fun k =>
    let vs := (l.filter (fun p => p.1 = k)).map (fun p => p.2)
    (k, vs.sum / vs.length))

/-- The (label, value) pairs grouped by `lan_data`: resolved region
name and value of every surviving row. -/
def lanPairs (rows : List RawRow) : List (String × ℚ) :=
  (processedRows rows).map (fun r => (r.region_name, r.value))

/-- The (label, value) pairs grouped by `nuts2_data`: rows whose
`nuts2_region` is NaN are dropped. -/
def nutsPairs (rows : List RawRow) : List (String × ℚ) :=
  (processedRows rows).filterMap (fun r =>
    r.nuts2_region.map (fun n => (n, r.value)))

/-- The (label, value) pairs grouped by `process_trafikverket_data`:
the `region_name` column mapped to a Trafikverket region, rows mapped
to `""` dropped. -/
def tvPairs (rows : List RawRow) : List (String × ℚ) :=
  ((processedRows rows).map (fun r =>
    (map_to_trafikverket_region r.region_name, r.value))).filter
      (fun p => p.1 ≠ "")

/-- The county-level aggregate `lan_data` of `process_data` (line 109). -/
def lan_data (rows : List RawRow) : List (String × ℚ) :=
  groupMean (lanPairs rows)

/-- The NUTS-2 aggregate `nuts2_data` of `process_data` (lines 102,
110). -/
def nuts2_data (rows : List RawRow) : List (String × ℚ) :=
  groupMean (nutsPairs rows)

/-- `process_trafikverket_data` (src/utils/trafikverket_regions.py lines
141-170) applied to `processed_df`: map `region_name` to a Trafikverket
region, drop rows mapped to `""`, group by region and take the mean.
(An empty filtered frame returns an empty DataFrame, which coincides
with `groupMean []`.) -/
def trafikverket_data (rows : List RawRow) : List (String × ℚ) :=
  groupMean (tvPairs rows)

/-- `process_data` (src/utils/data_utils.py lines 41-122): the three
aggregates.  The final all-empty check returns three empty frames,
which is the identity on the triple. -/
def process_data (rows : List RawRow) :
    List (String × ℚ) × List (String × ℚ) × List (String × ℚ) :=
  let lan := lan_data rows
  let nuts2 := nuts2_data rows
  let tv := trafikverket_data rows
  if lan = [] ∧ nuts2 = [] ∧ tv = [] then ([], [], [])
  else (lan, nuts2, tv)

/-- One output row of `create_custom_region_group`: group name,
aggregated mean, the joined region list, and `region_count`. -/
structure CustomGroupRow where
  custom_group : String
  value : ℚ
  regions : String
  region_count : ℕ
deriving DecidableEq, Repr

/-- `create_custom_region_group` (src/utils/region_groups.py lines
10-52): for each group in order, skip empty region lists, filter the
data rows whose region is in the group's list, and if any match emit
the mean value, the comma-joined configured regions and the count of
configured regions. -/
def create_custom_region_group (df : List (String × ℚ))
    (custom_groups : List (String × List String)) : List CustomGroupRow :=
  custom_groups.filterMap (fun g =>
    if g.2.isEmpty then none
    else
      let group_df := df.filter (fun r => g.2.contains r.1)
      if group_df.isEmpty then none
      else some ⟨g.1, ((group_df.map (fun r => r.2)).sum) / group_df.length,
                 String.intercalate ", " g.2, g.2.length⟩)

/-- A row of the input county-boundary GeoDataFrame: the `name` property
and the region's geometry, modelled as the set of points it covers. -/
structure GeoRow where
  name : String
  geometry : Finset ℕ
deriving DecidableEq

/-- The input GeoDataFrame of `create_trafikverket_regions`: its rows
and its coordinate reference system. -/
structure GeoFrame where
  rows : List GeoRow
  crs : Option String
deriving DecidableEq

/-- An output row of `create_trafikverket_regions`. -/
structure TvRow where
  name : String
  id : String
  geometry : Finset ℕ
deriving DecidableEq

/-- The output GeoDataFrame of `create_trafikverket_regions`. -/
structure TvFrame where
  rows : List TvRow
  crs : Option String
deriving DecidableEq

/-- The six distinct Trafikverket region labels.  Python iterates
`set(TRAFIKVERKET_REGIONS.values())`, whose order is unspecified; the
labels are listed here in first-appearance order and every theorem about
the output is stated membership-wise. -/
def tvLabels : List String := uniqueKeys (TRAFIKVERKET_REGIONS.map (fun p => p.2))

/-- The counties of one Trafikverket region, in `TRAFIKVERKET_REGIONS`
order (the list comprehension at lines 84-85). -/
def countiesOf (region_name : String) : List String :=
  (TRAFIKVERKET_REGIONS.filter (fun p => p.2 = region_name)).map (fun p => p.1)

/-- The geometry collection loop of `create_trafikverket_regions`
(lines 88-92): for each county of the region, all geometries of input
rows whose " län"-stripped name equals the county. -/
def countyGeometries (rows : List GeoRow) (region_name : String) :
    List (Finset ℕ) :=
  (countiesOf region_name).flatMap (fun county =>
    (rows.filter (fun r => stripLan r.name = county)).map (fun r => r.geometry))

/-- Shapely's `unary_union`: the set-union of a list of geometries. -/
def unary_union (l : List (Finset ℕ)) : Finset ℕ := l.foldr (fun a b => a ∪ b) ∅

/-- `create_trafikverket_regions` (src/utils/trafikverket_regions.py
lines 59-121): per region collect member geometries, skip regions with
none, union the rest, attach the `TRAFIKVERKET_IDS` id, and copy the
input's CRS.  If no region produced a row, the code returns a fresh
empty `GeoDataFrame()` (CRS `none`). -/
def create_trafikverket_regions (g : GeoFrame) : TvFrame :=
  let rows := tvLabels.filterMap (fun region_name =>
    let geoms := countyGeometries g.rows region_name
    if geoms.isEmpty then none
    else some ⟨region_name, (dictGet TRAFIKVERKET_IDS region_name).getD "",
               unary_union geoms⟩)
  if rows.isEmpty then ⟨[], none⟩ else ⟨rows, g.crs⟩

/-- Lexicographic comparison of character lists by code point: the
ordering Python `sorted` uses on strings. -/
def charListLe : List Char → List Char → Bool
  | [], _ => true
  | _ :: _, [] => false
  | a :: as, b :: bs =>
    if a.toNat < b.toNat then true
    else if b.toNat < a.toNat then false
    else charListLe as bs

/-- Python string comparison `a <= b` (code-point lexicographic). -/
def strLe (a b : String) : Bool := charListLe a.data b.data

/-- Insert a string into a sorted list (code-point order, as Python
`sorted` compares strings). -/
def insertSorted (x : String) : List String → List String
  | [] => [x]
  | y :: ys => if strLe x y then x :: y :: ys else y :: insertSorted x ys

/-- Insertion sort on strings. -/
def sortStrings (l : List String) : List String := l.foldr insertSorted []

/-- `get_available_regions` (src/utils/region_groups.py lines 55-62):
`sorted(list(LAN_MAPPING.values()))`. -/
def get_available_regions : List String := sortStrings lanNames

/-- Python list slicing `l[a:b]` for `0 ≤ a ≤ b ≤ len(l)` (the only
index range `create_random_groups` reaches: see the bounds proved for
it below). -/
def pySlice (l : List String) (a b : Int) : List String :=
  (l.take b.toNat).drop a.toNat

/-- `create_random_groups` (src/ui/custom_groups.py lines 119-153),
with its two sources of randomness made explicit: `shuffled` is the
result of `random.shuffle` on `get_available_regions`, and `v0 v1 v2`
are the three draws of `random.randint(-1, 1)`.  The first three groups
take contiguous slices of size `len // 4 + variation`; the last group
takes everything remaining. -/
def create_random_groups (shuffled : List String) (v0 v1 v2 : Int) :
    List (String × List String) :=
  let per : Int := (shuffled.length : Int) / 4
  let e0 : Int := 0 + per + v0
  let e1 : Int := e0 + per + v1
  let e2 : Int := e1 + per + v2
  [("Norra", pySlice shuffled 0 e0),
   ("Södra", pySlice shuffled e0 e1),
   ("Östra", pySlice shuffled e1 e2),
   ("Västra", shuffled.drop e2.toNat)]

example :
    (create_random_groups get_available_regions (-1) (-1) (-1)).map
      (fun g => g.2.length) = [4, 4, 4, 9] := by decide

example :
    create_trafikverket_regions
      ⟨[⟨"Skåne län", {1, 2}⟩, ⟨"Blekinge", {3}⟩, ⟨"Gotland", {7}⟩],
       some "EPSG:4326"⟩ =
      ⟨[⟨"Syd", "26", {1, 2, 3}⟩, ⟨"Öst", "29", {7}⟩], some "EPSG:4326"⟩ := by
  decide

/-! ### Helper lemmas -/

theorem mem_uniqueKeysAux (seen l : List String) (k : String) :
    k ∈ uniqueKeysAux seen l ↔ k ∈ l ∧ k ∉ seen := by
  induction l generalizing seen with
  | nil => simp [uniqueKeysAux]
  | cons a rest ih =>
    by_cases h : seen.contains a
    · simp only [uniqueKeysAux, if_pos h, ih, List.mem_cons]
      constructor
      · rintro ⟨hk, hs⟩; exact ⟨Or.inr hk, hs⟩
      · rintro ⟨hk | hk, hs⟩
        · subst hk; exact absurd (by simpa using h) hs
        · exact ⟨hk, hs⟩
    · simp only [uniqueKeysAux, if_neg h, List.mem_cons, ih]
      constructor
      · rintro (hk | ⟨hk, hs⟩)
        · subst hk; exact ⟨Or.inl rfl, by simpa using h⟩
        · simp at hs; exact ⟨Or.inr hk, hs.2⟩
      · rintro ⟨hk | hk, hs⟩
        · subst hk; exact Or.inl rfl
        · by_cases hak : k = a
          · subst hak; exact Or.inl rfl
          · exact Or.inr ⟨hk, by simp [hs, hak]⟩

theorem mem_uniqueKeys (l : List String) (k : String) :
    k ∈ uniqueKeys l ↔ k ∈ l := by
  simp [uniqueKeys, mem_uniqueKeysAux]

/-- Membership characterisation of `groupMean`: a pair is an output row
iff its key occurs among the input keys and its value is the arithmetic
mean of the values filed under that key. -/
theorem mem_groupMean (l : List (String × ℚ)) (k : String) (m : ℚ) :
    (k, m) ∈ groupMean l ↔
      k ∈ l.map (fun p => p.1) ∧
        m = ((l.filter (fun p => p.1 = k)).map (fun p => p.2)).sum /
              ((l.filter (fun p => p.1 = k)).map (fun p => p.2)).length := by
  simp only [groupMean, List.mem_map, mem_uniqueKeys]
  constructor
  · rintro ⟨k', hk', heq⟩
    obtain ⟨rfl, rfl⟩ : k' = k ∧
        ((l.filter (fun p => p.1 = k')).map (fun p => p.2)).sum /
          ((l.filter (fun p => p.1 = k')).map (fun p => p.2)).length = m := by
      constructor
      · exact congrArg Prod.fst heq
      · exact congrArg Prod.snd heq
    exact ⟨hk', rfl⟩
  · rintro ⟨hk, rfl⟩
    exact ⟨k, hk, rfl⟩

theorem label_mem_groupMean (l : List (String × ℚ)) (k : String) :
    k ∈ (groupMean l).map (fun p => p.1) ↔ k ∈ l.map (fun p => p.1) := by
  simp [groupMean, mem_uniqueKeys]

theorem sum_of_all_ones (vs : List ℚ) (h : ∀ v ∈ vs, v = 1) :
    vs.sum = vs.length := by
  induction vs with
  | nil => simp
  | cons a rest ih =>
    have ha : a = 1 := h a (by simp)
    have : rest.sum = rest.length := ih (fun v hv => h v (by simp [hv]))
    simp [ha, this]
    ring

/-- If every value of the pair list is 1, every group mean is 1. -/
theorem groupMean_all_ones (l : List (String × ℚ))
    (h : ∀ p ∈ l, p.2 = 1) (k : String) (m : ℚ)
    (hm : (k, m) ∈ groupMean l) : m = 1 := by
  rw [mem_groupMean] at hm
  obtain ⟨hk, rfl⟩ := hm
  set vs := (l.filter (fun p => p.1 = k)).map (fun p => p.2) with hvs
  have hone : ∀ v ∈ vs, v = 1 := by
    intro v hv
    rw [hvs] at hv
    obtain ⟨p, hp, rfl⟩ := List.mem_map.mp hv
    exact h p (List.mem_of_mem_filter hp)
  have hne : vs ≠ [] := by
    rw [hvs]
    simp only [ne_eq, List.map_eq_nil_iff, List.filter_eq_nil_iff, not_forall]
    obtain ⟨p, hp, rfl⟩ := List.mem_map.mp hk
    exact ⟨p, hp, by simp⟩
  have hlen : (0 : ℚ) < vs.length := by
    have : 0 < vs.length := List.length_pos_of_ne_nil hne
    exact_mod_cast this
  rw [sum_of_all_ones vs hone]
  exact div_self (ne_of_gt hlen)

/-- The values contributing to county group `k`: values of rows that
are numeric and whose identifier resolves to `k`.  (Stated directly on
the raw input, independently of the pipeline's intermediate frames.) -/
def contributing (rows : List RawRow) (k : String) : List ℚ :=
  rows.filterMap (fun r => if resolveRegion r.region = k then r.value else none)

theorem processedRows_cons (r : RawRow) (rest : List RawRow) :
    processedRows (r :: rest) =
      match r.value with
      | none => processedRows rest
      | some v =>
        ⟨resolveRegion r.region, dictGet NUTS2_MAPPING (resolveRegion r.region),
         v⟩ :: processedRows rest := by
  cases hv : r.value <;> simp [processedRows, List.filterMap_cons, hv]

theorem lanPairs_cons (r : RawRow) (rest : List RawRow) :
    lanPairs (r :: rest) =
      match r.value with
      | none => lanPairs rest
      | some v => (resolveRegion r.region, v) :: lanPairs rest := by
  cases hv : r.value <;> simp [lanPairs, processedRows_cons, hv]

theorem contributing_cons (r : RawRow) (rest : List RawRow) (k : String) :
    contributing (r :: rest) k =
      match r.value with
      | none => contributing rest k
      | some v =>
        if resolveRegion r.region = k then v :: contributing rest k
        else contributing rest k := by
  cases hv : r.value with
  | none => simp [contributing, List.filterMap_cons, hv]
  | some v =>
    by_cases hk : resolveRegion r.region = k <;>
      simp [contributing, List.filterMap_cons, hv, hk]

theorem lanPairs_filter_eq_contributing (rows : List RawRow) (k : String) :
    ((lanPairs rows).filter (fun p => p.1 = k)).map (fun p => p.2) =
      contributing rows k := by
  induction rows with
  | nil => simp [lanPairs, processedRows, contributing]
  | cons r rest ih =>
    rw [lanPairs_cons, contributing_cons]
    cases hv : r.value with
    | none => exact ih
    | some v =>
      by_cases hk : resolveRegion r.region = k
      · simp [List.filter_cons, hk, ih]
      · simp [List.filter_cons, hk, ih]

theorem mem_lanPairs (rows : List RawRow) (k : String) (v : ℚ) :
    (k, v) ∈ lanPairs rows ↔
      ∃ r ∈ rows, r.value = some v ∧ resolveRegion r.region = k := by
  simp only [lanPairs, processedRows, List.mem_map, List.mem_filterMap]
  constructor
  · rintro ⟨pr, ⟨r, hr, hmap⟩, heq⟩
    cases hv : r.value with
    | none => rw [hv] at hmap; simp at hmap
    | some w =>
      rw [hv] at hmap
      simp only [Option.map_some', Option.some_inj] at hmap
      subst hmap
      simp only at heq
      obtain ⟨h1, h2⟩ : resolveRegion r.region = k ∧ w = v := by
        refine ⟨congrArg Prod.fst heq, congrArg Prod.snd heq⟩
      exact ⟨r, hr, by rw [hv, h2], h1⟩
  · rintro ⟨r, hr, hv, hk⟩
    exact ⟨⟨k, dictGet NUTS2_MAPPING k, v⟩, ⟨r, hr, by rw [hv]; simp [hk]⟩, rfl⟩

theorem lanPairs_key_mem (rows : List RawRow) (r : RawRow) (v : ℚ)
    (hr : r ∈ rows) (hv : r.value = some v) :
    resolveRegion r.region ∈ (lanPairs rows).map (fun p => p.1) := by
  have : (resolveRegion r.region, v) ∈ lanPairs rows :=
    (mem_lanPairs rows _ v).mpr ⟨r, hr, hv, rfl⟩
  exact List.mem_map.mpr ⟨_, this, rfl⟩

/-- Dropping missing-value rows leaves `processedRows` unchanged. -/
theorem processedRows_filter_some (rows : List RawRow) :
    processedRows (rows.filter (fun r => r.value.isSome)) =
      processedRows rows := by
  induction rows with
  | nil => rfl
  | cons r rest ih =>
    cases hv : r.value with
    | none =>
      rw [List.filter_cons, processedRows_cons]
      simp only [hv, Option.isSome_none]
      simpa using ih
    | some v =>
      rw [List.filter_cons]
      simp only [hv, Option.isSome_some, if_pos]
      rw [processedRows_cons, processedRows_cons]
      simp only [hv]
      rw [ih]

theorem dictGet_isSome_iff (m : List (String × String)) (k : String) :
    (dictGet m k).isSome ↔ k ∈ m.map (fun p => p.1) := by
  simp only [dictGet, Option.isSome_map', List.find?_isSome,
    decide_eq_true_eq, List.mem_map]

theorem dictGet_mem_values (m : List (String × String)) (k v : String)
    (h : dictGet m k = some v) : v ∈ m.map (fun p => p.2) := by
  simp only [dictGet, Option.map_eq_some'] at h
  obtain ⟨p, hp, rfl⟩ := h
  exact List.mem_map.mpr ⟨p, List.mem_of_find?_eq_some hp, rfl⟩

set_option maxRecDepth 20000 in
/-- The NUTS-2 mapping has an entry for a name exactly when the name is
one of the 21 canonical county names. -/
theorem nuts2_isSome_iff (name : String) :
    (dictGet NUTS2_MAPPING name).isSome ↔ name ∈ lanNames := by
  rw [dictGet_isSome_iff]
  have hperm : (NUTS2_MAPPING.map (fun p => p.1)).Perm lanNames := by decide
  exact hperm.mem_iff

/-- `map_to_region` either resolves to a canonical county name or
returns its input unchanged. -/
theorem map_to_region_mem_or_eq (s : String) :
    map_to_region s ∈ lanNames ∨ map_to_region s = s := by
  unfold map_to_region
  cases hf : dictGet LAN_MAPPING s with
  | some name => exact Or.inl (dictGet_mem_values _ _ _ hf)
  | none =>
    cases ha : LAN_MAPPING.any (fun p => p.2 = s) with
    | true => simp [ha]
    | false =>
      simp only [ha, Bool.false_eq_true, if_neg, not_false_eq_true]
      cases hci : LAN_MAPPING.find? (fun p => lowerPy s = lowerPy p.2) with
      | some p =>
        exact Or.inl (List.mem_map.mpr ⟨p, List.mem_of_find?_eq_some hci, rfl⟩)
      | none => exact Or.inr rfl

theorem nutsPairs_cons (r : RawRow) (rest : List RawRow) :
    nutsPairs (r :: rest) =
      match r.value with
      | none => nutsPairs rest
      | some v =>
        match dictGet NUTS2_MAPPING (resolveRegion r.region) with
        | none => nutsPairs rest
        | some n => (n, v) :: nutsPairs rest := by
  cases hv : r.value with
  | none => simp [nutsPairs, processedRows_cons, hv]
  | some v =>
    cases hn : dictGet NUTS2_MAPPING (resolveRegion r.region) <;>
      simp [nutsPairs, processedRows_cons, hv, List.filterMap_cons, hn]

theorem tvPairs_cons (r : RawRow) (rest : List RawRow) :
    tvPairs (r :: rest) =
      match r.value with
      | none => tvPairs rest
      | some v =>
        if map_to_trafikverket_region (resolveRegion r.region) = "" then
          tvPairs rest
        else (map_to_trafikverket_region (resolveRegion r.region), v) ::
          tvPairs rest := by
  cases hv : r.value with
  | none => simp [tvPairs, processedRows_cons, hv]
  | some v =>
    by_cases ht : map_to_trafikverket_region (resolveRegion r.region) = "" <;>
      simp [tvPairs, processedRows_cons, hv, List.filter_cons, ht]

/-- Rows whose resolved name is not canonical contribute nothing to the
NUTS-2 pair list. -/
theorem nutsPairs_filter_resolved (rows : List RawRow) :
    nutsPairs (rows.filter (fun r => resolveRegion r.region ∈ lanNames)) =
      nutsPairs rows := by
  induction rows with
  | nil => rfl
  | cons r rest ih =>
    by_cases hm : resolveRegion r.region ∈ lanNames
    · rw [List.filter_cons_of_pos (by simpa using hm), nutsPairs_cons,
        nutsPairs_cons, ih]
    · rw [List.filter_cons_of_neg (by simpa using hm), ih, nutsPairs_cons]
      have hnone : dictGet NUTS2_MAPPING (resolveRegion r.region) = none := by
        rcases ho : dictGet NUTS2_MAPPING (resolveRegion r.region) with _ | n
        · rfl
        · exact absurd ((nuts2_isSome_iff _).mp (by rw [ho]; rfl)) hm
      cases hv : r.value with
      | none => rfl
      | some v => rw [hnone]

/-- Rows mapped to the empty Trafikverket label contribute nothing to
the Trafikverket pair list. -/
theorem tvPairs_filter_mapped (rows : List RawRow) :
    tvPairs (rows.filter
      (fun r => map_to_trafikverket_region (resolveRegion r.region) ≠ "")) =
      tvPairs rows := by
  induction rows with
  | nil => rfl
  | cons r rest ih =>
    by_cases hm : map_to_trafikverket_region (resolveRegion r.region) = ""
    · rw [List.filter_cons_of_neg (by simpa using hm), ih, tvPairs_cons]
      cases hv : r.value with
      | none => rfl
      | some v => simp [hm]
    · rw [List.filter_cons_of_pos (by simpa using hm), tvPairs_cons,
        tvPairs_cons, ih]

/-- Every label in the NUTS-2 pair list is a value of `NUTS2_MAPPING`. -/
theorem mem_nutsPairs_label (rows : List RawRow) (k : String) (v : ℚ)
    (h : (k, v) ∈ nutsPairs rows) : k ∈ NUTS2_MAPPING.map (fun p => p.2) := by
  induction rows with
  | nil => simp [nutsPairs, processedRows] at h
  | cons r rest ih =>
    rw [nutsPairs_cons] at h
    cases hv : r.value with
    | none => simp only [hv] at h; exact ih h
    | some w =>
      simp only [hv] at h
      cases hn : dictGet NUTS2_MAPPING (resolveRegion r.region) with
      | none => simp only [hn] at h; exact ih h
      | some n =>
        simp only [hn] at h
        rcases List.mem_cons.mp h with heq | hmem
        · have : k = n := congrArg Prod.fst heq
          subst this
          exact dictGet_mem_values _ _ _ hn
        · exact ih hmem

/-- Every label in the Trafikverket pair list is a value of
`TRAFIKVERKET_REGIONS`. -/
theorem mem_tvPairs_label (rows : List RawRow) (k : String) (v : ℚ)
    (h : (k, v) ∈ tvPairs rows) :
    k ∈ TRAFIKVERKET_REGIONS.map (fun p => p.2) := by
  induction rows with
  | nil => simp [tvPairs, processedRows] at h
  | cons r rest ih =>
    rw [tvPairs_cons] at h
    cases hv : r.value with
    | none => simp only [hv] at h; exact ih h
    | some w =>
      simp only [hv] at h
      by_cases ht : map_to_trafikverket_region (resolveRegion r.region) = ""
      · rw [if_pos ht] at h; exact ih h
      · rw [if_neg ht] at h
        rcases List.mem_cons.mp h with heq | hmem
        · have hk : k = map_to_trafikverket_region (resolveRegion r.region) :=
            congrArg Prod.fst heq
          subst hk
          unfold map_to_trafikverket_region at ht ⊢
          cases hd : dictGet TRAFIKVERKET_REGIONS
              (stripLan (resolveRegion r.region)) with
          | none => rw [hd] at ht; simp at ht
          | some n =>
            simpa using dictGet_mem_values _ _ _ hd
        · exact ih hmem

theorem mem_unary_union (l : List (Finset ℕ)) (x : ℕ) :
    x ∈ unary_union l ↔ ∃ g ∈ l, x ∈ g := by
  induction l with
  | nil => simp [unary_union]
  | cons a rest ih => simp [unary_union, List.foldr_cons, ih.symm]

theorem mem_countyGeometries (rows : List GeoRow) (label : String)
    (s : Finset ℕ) :
    s ∈ countyGeometries rows label ↔
      ∃ r ∈ rows, stripLan r.name ∈ countiesOf label ∧ s = r.geometry := by
  simp only [countyGeometries, List.mem_flatMap, List.mem_map,
    List.mem_filter, decide_eq_true_eq]
  constructor
  · rintro ⟨county, hcounty, r, ⟨hr, hname⟩, rfl⟩
    exact ⟨r, hr, by rw [hname]; exact hcounty, rfl⟩
  · rintro ⟨r, hr, hmem, rfl⟩
    exact ⟨stripLan r.name, hmem, r, ⟨hr, rfl⟩, rfl⟩

/-- Points of the merged geometry of one group: exactly the points of
some input geometry whose normalised name belongs to the group. -/
theorem mem_merged_geometry (rows : List GeoRow) (label : String) (x : ℕ) :
    x ∈ unary_union (countyGeometries rows label) ↔
      ∃ r ∈ rows, stripLan r.name ∈ countiesOf label ∧ x ∈ r.geometry := by
  rw [mem_unary_union]
  constructor
  · rintro ⟨g, hg, hx⟩
    obtain ⟨r, hr, hmem, rfl⟩ := (mem_countyGeometries rows label g).mp hg
    exact ⟨r, hr, hmem, hx⟩
  · rintro ⟨r, hr, hmem, hx⟩
    exact ⟨r.geometry, (mem_countyGeometries rows label _).mpr
      ⟨r, hr, hmem, rfl⟩, hx⟩

theorem countyGeometries_eq_nil_iff (rows : List GeoRow) (label : String) :
    countyGeometries rows label = [] ↔
      ∀ r ∈ rows, stripLan r.name ∉ countiesOf label := by
  rw [List.eq_nil_iff_forall_not_mem]
  constructor
  · intro h r hr hmem
    exact h r.geometry ((mem_countyGeometries rows label _).mpr
      ⟨r, hr, hmem, rfl⟩)
  · intro h s hs
    obtain ⟨r, hr, hmem, rfl⟩ := (mem_countyGeometries rows label s).mp hs
    exact h r hr hmem

theorem countyGeometries_perm_nil (rows rows' : List GeoRow)
    (h : rows.Perm rows') (label : String) :
    (countyGeometries rows label = [] ↔ countyGeometries rows' label = []) := by
  rw [countyGeometries_eq_nil_iff, countyGeometries_eq_nil_iff]
  constructor
  · intro hall r hr; exact hall r (h.mem_iff.mpr hr)
  · intro hall r hr; exact hall r (h.mem_iff.mp hr)

theorem merged_geometry_perm (rows rows' : List GeoRow)
    (h : rows.Perm rows') (label : String) :
    unary_union (countyGeometries rows label) =
      unary_union (countyGeometries rows' label) := by
  ext x
  rw [mem_merged_geometry, mem_merged_geometry]
  constructor
  · rintro ⟨r, hr, hmem, hx⟩; exact ⟨r, h.mem_iff.mp hr, hmem, hx⟩
  · rintro ⟨r, hr, hmem, hx⟩; exact ⟨r, h.mem_iff.mpr hr, hmem, hx⟩

/-- Reordering the input rows does not change `create_trafikverket_regions`
at all (same labels, ids, geometries and CRS). -/
theorem create_trafikverket_regions_perm (rows rows' : List GeoRow)
    (crs : Option String) (h : rows.Perm rows') :
    create_trafikverket_regions ⟨rows, crs⟩ =
      create_trafikverket_regions ⟨rows', crs⟩ := by
  unfold create_trafikverket_regions
  have hrows : (tvLabels.filterMap (fun region_name =>
      let geoms := countyGeometries rows region_name
      if geoms.isEmpty then none
      else some (⟨region_name, (dictGet TRAFIKVERKET_IDS region_name).getD "",
        unary_union geoms⟩ : TvRow))) =
      (tvLabels.filterMap (fun region_name =>
      let geoms := countyGeometries rows' region_name
      if geoms.isEmpty then none
      else some (⟨region_name, (dictGet TRAFIKVERKET_IDS region_name).getD "",
        unary_union geoms⟩ : TvRow))) := by
    apply List.filterMap_congr
    intro label hlabel
    by_cases hnil : countyGeometries rows label = []
    · have hnil' : countyGeometries rows' label = [] :=
        (countyGeometries_perm_nil rows rows' h label).mp hnil
      simp [hnil, hnil']
    · have hnil' : countyGeometries rows' label ≠ [] :=
        fun hc => hnil ((countyGeometries_perm_nil rows rows' h label).mpr hc)
      simp only [List.isEmpty_iff, hnil, hnil', if_neg]
      rw [merged_geometry_perm rows rows' h label]
  simp only at hrows ⊢
  rw [hrows]

theorem create_custom_cons (df : List (String × ℚ))
    (g : String × List String) (rest : List (String × List String)) :
    create_custom_region_group df (g :: rest) =
      (if g.2.isEmpty then create_custom_region_group df rest
       else
        if (df.filter (fun r => g.2.contains r.1)).isEmpty then
          create_custom_region_group df rest
        else (⟨g.1,
          (((df.filter (fun r => g.2.contains r.1)).map (fun r => r.2)).sum) /
            (df.filter (fun r => g.2.contains r.1)).length,
          String.intercalate ", " g.2, g.2.length⟩ : CustomGroupRow) ::
          create_custom_region_group df rest) := by
  simp only [create_custom_region_group, List.filterMap_cons]
  by_cases h1 : g.2.isEmpty
  · rw [if_pos h1, if_pos h1]
  · rw [if_neg h1, if_neg h1]
    by_cases h2 : (df.filter (fun r => g.2.contains r.1)).isEmpty
    · rw [if_pos h2, if_pos h2]
    · rw [if_neg h2, if_neg h2]

/-- Membership characterisation of `create_custom_region_group`: a row
appears iff some configured group carries its label, has a non-empty
region list, matches at least one data row, and the row records the
mean over matched rows and the count of configured regions. -/
theorem mem_create_custom (df : List (String × ℚ))
    (groups : List (String × List String)) (row : CustomGroupRow) :
    row ∈ create_custom_region_group df groups ↔
      ∃ g ∈ groups, g.1 = row.custom_group ∧ g.2 ≠ [] ∧
        df.filter (fun r => g.2.contains r.1) ≠ [] ∧
        row.value = ((df.filter (fun r => g.2.contains r.1)).map
          (fun r => r.2)).sum / (df.filter (fun r => g.2.contains r.1)).length ∧
        row.regions = String.intercalate ", " g.2 ∧
        row.region_count = g.2.length := by
  simp only [create_custom_region_group, List.mem_filterMap]
  constructor
  · rintro ⟨g, hg, hsome⟩
    by_cases h1 : g.2.isEmpty
    · rw [if_pos h1] at hsome; simp at hsome
    · rw [if_neg h1] at hsome
      by_cases h2 : (df.filter (fun r => g.2.contains r.1)).isEmpty
      · rw [if_pos h2] at hsome; simp at hsome
      · rw [if_neg h2] at hsome
        simp only [Option.some_inj] at hsome
        subst hsome
        exact ⟨g, hg, rfl, by simpa using h1, by simpa using h2,
          rfl, rfl, rfl⟩
  · rintro ⟨g, hg, hlab, hne, hmatch, hval, hreg, hcnt⟩
    refine ⟨g, hg, ?_⟩
    rw [if_neg (by simpa using hne), if_neg (by simpa using hmatch)]
    cases row
    simp only at hlab hval hreg hcnt
    simp [hlab, hval, hreg, hcnt]

/-- Every output label of `create_custom_region_group` is a configured
group label. -/
theorem create_custom_label_mem (df : List (String × ℚ))
    (groups : List (String × List String)) (row : CustomGroupRow)
    (h : row ∈ create_custom_region_group df groups) :
    row.custom_group ∈ groups.map (fun g => g.1) := by
  obtain ⟨g, hg, hlab, _⟩ := (mem_create_custom df groups row).mp h
  exact List.mem_map.mpr ⟨g, hg, hlab⟩

/-- With distinct group names, each configured group yields exactly one
output row when it is non-empty and matched, and none otherwise. -/
theorem create_custom_countP (df : List (String × ℚ))
    (groups : List (String × List String))
    (hnodup : (groups.map (fun g => g.1)).Nodup)
    (g : String) (regions : List String) (hmem : (g, regions) ∈ groups) :
    (create_custom_region_group df groups).countP
        (fun row => row.custom_group = g) =
      if regions ≠ [] ∧ df.filter (fun r => regions.contains r.1) ≠ [] then 1
      else 0 := by
  induction groups with
  | nil => simp at hmem
  | cons hd rest ih =>
    rw [create_custom_cons]
    simp only [List.map_cons, List.nodup_cons] at hnodup
    rcases List.mem_cons.mp hmem with heq | htail
    · have hg1 : hd.1 = g := by rw [← heq]
      have hg2 : hd.2 = regions := by rw [← heq]
      have hrest : ∀ row ∈ create_custom_region_group df rest,
          ¬(row.custom_group = g) := by
        intro row hrow hlab
        apply hnodup.1
        rw [hg1, ← hlab]
        exact create_custom_label_mem df rest row hrow
      have hzero : (create_custom_region_group df rest).countP
          (fun row => row.custom_group = g) = 0 := by
        rw [List.countP_eq_zero]
        intro row hrow
        simpa using hrest row hrow
      by_cases h1 : hd.2.isEmpty
      · rw [if_pos h1, hzero]
        have hreg : regions = [] := by rw [← hg2]; simpa using h1
        rw [if_neg (fun hP => hP.1 hreg)]
      · by_cases h2 : (df.filter (fun r => hd.2.contains r.1)).isEmpty
        · rw [if_neg h1, if_pos h2, hzero]
          have hfil : df.filter (fun r => regions.contains r.1) = [] := by
            rw [← hg2]; simpa using h2
          rw [if_neg (fun hP => hP.2 hfil)]
        · rw [if_neg h1, if_neg h2, List.countP_cons, hzero]
          have hne : regions ≠ [] := by
            rw [← hg2]; simpa using h1
          have hma : df.filter (fun r => regions.contains r.1) ≠ [] := by
            rw [← hg2]; simpa using h2
          rw [if_pos (And.intro hne hma)]
          simp [hg1]
    · have hg1 : hd.1 ≠ g := by
        intro hc
        apply hnodup.1
        rw [hc]
        exact List.mem_map.mpr ⟨(g, regions), htail, rfl⟩
      have htailcount := ih hnodup.2 htail
      by_cases h1 : hd.2.isEmpty
      · rw [if_pos h1]; exact htailcount
      · by_cases h2 : (df.filter (fun r => hd.2.contains r.1)).isEmpty
        · rw [if_neg h1, if_pos h2]; exact htailcount
        · rw [if_neg h1, if_neg h2, List.countP_cons, htailcount]
          simp [hg1]

/-! ### Claim theorems -/

/-- The 1-digit variant of a county code: the code with a leading zero
stripped (identity when there is no leading zero). -/
def stripLeadingZero (c : String) : String :=
  match c.data with
  | '0' :: rest => ⟨rest⟩
  | _ => c

set_option maxRecDepth 20000 in
/-- C2: the resolver pads single digits back to two-digit codes and
matches names case-insensitively, so each canonical code and its
stripped 1-digit variant resolve to the same base region (the county
the code names), and "stockholm" resolves like "Stockholm". -/
theorem c2_resolution_strategies :
    (∀ p ∈ LAN_MAPPING,
      resolveRegion (stripLeadingZero p.1) = resolveRegion p.1 ∧
        resolveRegion p.1 = p.2) ∧
      resolveRegion "stockholm" = resolveRegion "Stockholm" := by
  constructor
  · decide
  · decide

/-- C2 witness at the code "01"/variant "1". -/
theorem c2_witness :
    resolveRegion (stripLeadingZero "01") = resolveRegion "01" ∧
      resolveRegion "01" = "Stockholm" :=
  c2_resolution_strategies.1 ("01", "Stockholm") (by decide)

set_option maxRecDepth 40000 in
/-- C4: both built-in partitions are total and unambiguous over the 21
base regions: the assignment keys are exactly the 21 distinct county
names, the NUTS-2 partition has 8 groups and the Trafikverket partition
6, and per-group member counts sum to 21 in each. -/
theorem c4_partitions_total :
    lanNames.Nodup ∧ lanNames.length = 21 ∧
    ((NUTS2_MAPPING.map (fun p => p.1)).Perm lanNames ∧
      (uniqueKeys (NUTS2_MAPPING.map (fun p => p.2))).length = 8 ∧
      ((uniqueKeys (NUTS2_MAPPING.map (fun p => p.2))).map
        (fun grp => (NUTS2_MAPPING.filter (fun p => p.2 = grp)).length)).sum =
        21) ∧
    ((TRAFIKVERKET_REGIONS.map (fun p => p.1)).Perm lanNames ∧
      (uniqueKeys (TRAFIKVERKET_REGIONS.map (fun p => p.2))).length = 6 ∧
      ((uniqueKeys (TRAFIKVERKET_REGIONS.map (fun p => p.2))).map
        (fun grp =>
          (TRAFIKVERKET_REGIONS.filter (fun p => p.2 = grp)).length)).sum =
        21) := by
  refine ⟨by decide, by decide, ⟨?_, by decide, by decide⟩,
    ⟨?_, by decide, by decide⟩⟩ <;> decide

/-- C5 counterexample: "2" matches no base region, yet the resolver
(zero-padding included) retains "02", not the original "2" verbatim. -/
theorem c5_counterexample :
    resolveRegion "2" = "02" ∧ resolveRegion "2" ≠ "2" ∧
      resolveRegion "2" ∉ lanNames := by
  refine ⟨by decide, by decide, by decide⟩

/-- C5 amended: an unresolvable identifier is retained as its
zero-padded normalisation (never nulled out); for any identifier that
is not a single digit the padding is the identity, so the original is
retained verbatim. -/
theorem c5_retains_identifier :
    (∀ s : String, resolveRegion s ∉ lanNames → resolveRegion s = padRegion s) ∧
    (∀ s : String, s.length ≠ 1 → padRegion s = s) ∧
    (∀ s : String, pyIsDigit s = false → padRegion s = s) := by
  refine ⟨?_, ?_, ?_⟩
  · intro s hs
    rcases map_to_region_mem_or_eq (padRegion s) with hmem | heq
    · exact absurd hmem hs
    · exact heq
  · intro s hs
    unfold padRegion
    rw [if_neg]
    simp [hs]
  · intro s hs
    unfold padRegion
    rw [if_neg]
    simp [hs]

/-- C5 witness at the unresolvable identifiers "Atlantis" and "2". -/
theorem c5_witness :
    resolveRegion "Atlantis" = padRegion "Atlantis" ∧
      padRegion "Atlantis" = "Atlantis" ∧ resolveRegion "2" = padRegion "2" :=
  ⟨c5_retains_identifier.1 "Atlantis" (by decide),
   c5_retains_identifier.2.1 "Atlantis" (by decide),
   c5_retains_identifier.1 "2" (by decide)⟩

theorem key_mem_iff_filter_ne_nil (l : List (String × ℚ)) (k : String) :
    k ∈ l.map (fun p => p.1) ↔ l.filter (fun p => p.1 = k) ≠ [] := by
  rw [ne_eq, List.filter_eq_nil_iff]
  simp only [List.mem_map, decide_eq_true_eq, not_forall]
  constructor
  · rintro ⟨p, hp, rfl⟩
    exact ⟨p, hp, by simp⟩
  · rintro ⟨p, hp, hk⟩
    simp only [not_not] at hk
    exact ⟨p, hp, hk⟩

/-- C1 counterexample: the record ("99", 5) has an identifier that
resolves to no base region, yet `process_data` keeps it in the
county-level aggregate as its own group "99" (it is only excluded from
the NUTS-2 and Trafikverket aggregates). -/
theorem c1_counterexample :
    resolveRegion "99" ∉ lanNames ∧
      process_data [⟨"99", some 5⟩] = ([("99", 5)], [], []) ∧
      (process_data [⟨"99", some 5⟩]).1 ≠ [] := by
  refine ⟨by decide, ?_, ?_⟩
  · simp +decide [process_data, lan_data, nuts2_data, trafikverket_data,
      groupMean, uniqueKeys, uniqueKeysAux, processedRows, lanPairs,
      nutsPairs, tvPairs, resolveRegion,
      map_to_region, padRegion, pyIsDigit, dictGet, lowerPy, charLowerPy,
      map_to_trafikverket_region, stripLan, removeLan, LAN_MAPPING,
      NUTS2_MAPPING, TRAFIKVERKET_REGIONS]
  · simp +decide [process_data, lan_data, nuts2_data, trafikverket_data,
      groupMean, uniqueKeys, uniqueKeysAux, processedRows, lanPairs,
      nutsPairs, tvPairs, resolveRegion,
      map_to_region, padRegion, pyIsDigit, dictGet, lowerPy, charLowerPy,
      map_to_trafikverket_region, stripLan, removeLan, LAN_MAPPING,
      NUTS2_MAPPING, TRAFIKVERKET_REGIONS]

/-- C1 amended: processing never raises (it is a total function);
missing/non-numeric values are excluded from all three aggregates;
records whose identifier resolves to no base region are excluded from
the NUTS-2 aggregate and from the Trafikverket aggregate exactly when
their resolved identifier maps to no Trafikverket region, but they are
NOT excluded from the county-level aggregate: every record with a
numeric value contributes its resolved identifier as a county-level
group label. -/
theorem c1_unresolved_handling :
    (∀ rows : List RawRow,
      process_data rows = process_data (rows.filter (fun r => r.value.isSome))) ∧
    (∀ rows : List RawRow,
      nuts2_data rows =
        nuts2_data (rows.filter (fun r => resolveRegion r.region ∈ lanNames))) ∧
    (∀ rows : List RawRow,
      trafikverket_data rows = trafikverket_data (rows.filter
        (fun r => map_to_trafikverket_region (resolveRegion r.region) ≠ ""))) ∧
    (∀ (rows : List RawRow) (r : RawRow) (v : ℚ), r ∈ rows →
      r.value = some v →
      resolveRegion r.region ∈ (lan_data rows).map (fun p => p.1)) := by
  refine ⟨?_, ?_, ?_, ?_⟩
  · intro rows
    unfold process_data lan_data nuts2_data trafikverket_data lanPairs
      nutsPairs tvPairs
    rw [processedRows_filter_some]
  · intro rows
    unfold nuts2_data
    rw [nutsPairs_filter_resolved]
  · intro rows
    unfold trafikverket_data
    rw [tvPairs_filter_mapped]
  · intro rows r v hr hv
    unfold lan_data
    rw [label_mem_groupMean]
    exact lanPairs_key_mem rows r v hr hv

/-- C1 witness: the valued record ("Atlantis", 2) yields the
county-level group label "Atlantis". -/
theorem c1_witness :
    resolveRegion "Atlantis" ∈
      (lan_data [⟨"Atlantis", some 2⟩]).map (fun p => p.1) :=
  c1_unresolved_handling.2.2.2 [⟨"Atlantis", some 2⟩] ⟨"Atlantis", some 2⟩ 2
    (List.mem_singleton_self _) rfl

/-- C10 counterexample: "Skåne län" is carried through the resolver
as-is (it is no base region and no key of the Trafikverket partition),
yet the " län"-stripping inside the Trafikverket mapping makes the
record contribute to the transport-authority aggregate. -/
theorem c10_counterexample :
    resolveRegion "Skåne län" = "Skåne län" ∧
      "Skåne län" ∉ lanNames ∧
      "Skåne län" ∉ TRAFIKVERKET_REGIONS.map (fun p => p.1) ∧
      trafikverket_data [⟨"Skåne län", some 5⟩] = [("Syd", 5)] := by
  refine ⟨by decide, by decide, by decide, ?_⟩
  simp +decide [trafikverket_data, groupMean, uniqueKeys, uniqueKeysAux,
    processedRows, tvPairs, resolveRegion,
    map_to_region, padRegion, pyIsDigit, dictGet, lowerPy, charLowerPy,
    map_to_trafikverket_region, stripLan, removeLan, LAN_MAPPING,
    NUTS2_MAPPING, TRAFIKVERKET_REGIONS]

/-- C10 amended: every NUTS-2 output label is one of the 8 canonical
NUTS-2 labels and every Trafikverket output label one of the 6 canonical
transport region names; a record contributes to the NUTS-2 output only
if its resolved name is canonical, and to the Trafikverket output only
if its resolved name maps (after " län"-stripping) to a Trafikverket
region — which an unresolved identifier such as "Skåne län" can do. -/
theorem c10_partition_labels :
    (∀ (rows : List RawRow) (k : String) (m : ℚ), (k, m) ∈ nuts2_data rows →
      k ∈ NUTS2_MAPPING.map (fun p => p.2)) ∧
    (∀ (rows : List RawRow) (k : String) (m : ℚ),
      (k, m) ∈ trafikverket_data rows →
      k ∈ TRAFIKVERKET_REGIONS.map (fun p => p.2)) ∧
    (∀ rows : List RawRow,
      nuts2_data rows =
        nuts2_data (rows.filter (fun r => resolveRegion r.region ∈ lanNames))) ∧
    (∀ rows : List RawRow,
      trafikverket_data rows = trafikverket_data (rows.filter
        (fun r => map_to_trafikverket_region (resolveRegion r.region) ≠ ""))) := by
  refine ⟨?_, ?_, ?_, ?_⟩
  · intro rows k m hk
    unfold nuts2_data at hk
    rw [mem_groupMean] at hk
    obtain ⟨p, hp, rfl⟩ := List.mem_map.mp hk.1
    exact mem_nutsPairs_label rows p.1 p.2 hp
  · intro rows k m hk
    unfold trafikverket_data at hk
    rw [mem_groupMean] at hk
    obtain ⟨p, hp, rfl⟩ := List.mem_map.mp hk.1
    exact mem_tvPairs_label rows p.1 p.2 hp
  · intro rows
    unfold nuts2_data
    rw [nutsPairs_filter_resolved]
  · intro rows
    unfold trafikverket_data
    rw [tvPairs_filter_mapped]

/-- C10 witness: from the record ("01", 1) the NUTS-2 label
"SE11 Stockholm" is canonical. -/
theorem c10_witness :
    "SE11 Stockholm" ∈ NUTS2_MAPPING.map (fun p => p.2) := by
  apply c10_partition_labels.1 [⟨"01", some 1⟩] "SE11 Stockholm" 1
  have h1 : nutsPairs [⟨"01", some 1⟩] = [("SE11 Stockholm", 1)] := by
    simp +decide [nutsPairs, processedRows, resolveRegion, map_to_region,
      padRegion, pyIsDigit, dictGet, lowerPy, charLowerPy, LAN_MAPPING,
      NUTS2_MAPPING]
  unfold nuts2_data
  rw [h1]
  rw [mem_groupMean]
  refine ⟨by simp, ?_⟩
  norm_num

theorem processedRows_value_one (rows : List RawRow)
    (h : ∀ r ∈ rows, ∀ v : ℚ, r.value = some v → v = 1) :
    ∀ pr ∈ processedRows rows, pr.value = 1 := by
  intro pr hpr
  simp only [processedRows, List.mem_filterMap] at hpr
  obtain ⟨r, hr, hmap⟩ := hpr
  cases hv : r.value with
  | none => rw [hv] at hmap; simp at hmap
  | some v =>
    rw [hv] at hmap
    simp only [Option.map_some', Option.some_inj] at hmap
    subst hmap
    exact h r hr v hv

theorem lanPairs_value_one (rows : List RawRow)
    (h : ∀ r ∈ rows, ∀ v : ℚ, r.value = some v → v = 1) :
    ∀ p ∈ lanPairs rows, p.2 = 1 := by
  intro p hp
  obtain ⟨pr, hpr, rfl⟩ := List.mem_map.mp hp
  exact processedRows_value_one rows h pr hpr

theorem nutsPairs_value_one (rows : List RawRow)
    (h : ∀ r ∈ rows, ∀ v : ℚ, r.value = some v → v = 1) :
    ∀ p ∈ nutsPairs rows, p.2 = 1 := by
  intro p hp
  simp only [nutsPairs, List.mem_filterMap] at hp
  obtain ⟨pr, hpr, hmap⟩ := hp
  cases hn : pr.nuts2_region with
  | none => rw [hn] at hmap; simp at hmap
  | some n =>
    rw [hn] at hmap
    simp only [Option.map_some', Option.some_inj] at hmap
    subst hmap
    exact processedRows_value_one rows h pr hpr

theorem tvPairs_value_one (rows : List RawRow)
    (h : ∀ r ∈ rows, ∀ v : ℚ, r.value = some v → v = 1) :
    ∀ p ∈ tvPairs rows, p.2 = 1 := by
  intro p hp
  have hp' := List.mem_of_mem_filter hp
  obtain ⟨pr, hpr, rfl⟩ := List.mem_map.mp hp'
  exact processedRows_value_one rows h pr hpr

/-- C3: county-level aggregation computes, for each group with at least
one contributing record, exactly sum/count over the contributing
records (missing values excluded from both); groups without
contributing records produce no row; a uniform all-1 input yields mean
1 in every group of all three partitions; and the three-row Stockholm
example aggregates to the single county group "Stockholm" with mean 200
over its 3 contributing rows. -/
theorem c3_aggregation_mean :
    (∀ (rows : List RawRow) (k : String) (m : ℚ),
      (k, m) ∈ lan_data rows ↔
        contributing rows k ≠ [] ∧
          m = (contributing rows k).sum / (contributing rows k).length) ∧
    (∀ rows : List RawRow, (∀ r ∈ rows, ∀ v : ℚ, r.value = some v → v = 1) →
      (∀ (k : String) (m : ℚ), (k, m) ∈ lan_data rows → m = 1) ∧
      (∀ (k : String) (m : ℚ), (k, m) ∈ nuts2_data rows → m = 1) ∧
      (∀ (k : String) (m : ℚ), (k, m) ∈ trafikverket_data rows → m = 1)) ∧
    (process_data [⟨"01", some 100⟩, ⟨"1", some 300⟩, ⟨"Stockholm", some 200⟩] =
      ([("Stockholm", 200)], [("SE11 Stockholm", 200)], [("Öst", 200)]) ∧
     (contributing [⟨"01", some 100⟩, ⟨"1", some 300⟩, ⟨"Stockholm", some 200⟩]
        "Stockholm").length = 3) := by
  refine ⟨?_, ?_, ?_, ?_⟩
  · intro rows k m
    unfold lan_data
    rw [mem_groupMean, lanPairs_filter_eq_contributing,
      key_mem_iff_filter_ne_nil]
    constructor
    · rintro ⟨hne, rfl⟩
      refine ⟨?_, ?_⟩
      · intro hc
        apply hne
        have := congrArg (fun l => l.map (fun p : String × ℚ => p.2))
          (rfl : (lanPairs rows).filter (fun p => p.1 = k) =
            (lanPairs rows).filter (fun p => p.1 = k))
        rw [List.eq_nil_iff_forall_not_mem]
        intro p hp
        have hmem : p.2 ∈ contributing rows k := by
          rw [← lanPairs_filter_eq_contributing]
          exact List.mem_map.mpr ⟨p, hp, rfl⟩
        rw [hc] at hmem
        simp at hmem
      · rfl
    · rintro ⟨hne, rfl⟩
      refine ⟨?_, ?_⟩
      · intro hc
        apply hne
        rw [← lanPairs_filter_eq_contributing, hc]
        simp
      · rfl
  · intro rows h
    refine ⟨?_, ?_, ?_⟩
    · intro k m hm
      exact groupMean_all_ones _ (lanPairs_value_one rows h) k m hm
    · intro k m hm
      exact groupMean_all_ones _ (nutsPairs_value_one rows h) k m hm
    · intro k m hm
      exact groupMean_all_ones _ (tvPairs_value_one rows h) k m hm
  · simp +decide [process_data, lan_data, nuts2_data, trafikverket_data,
      groupMean, uniqueKeys, uniqueKeysAux, processedRows, lanPairs,
      nutsPairs, tvPairs, resolveRegion,
      map_to_region, padRegion, pyIsDigit, dictGet, lowerPy, charLowerPy,
      map_to_trafikverket_region, stripLan, removeLan, LAN_MAPPING,
      NUTS2_MAPPING, TRAFIKVERKET_REGIONS]
    norm_num
  · simp +decide [contributing, resolveRegion, map_to_region, padRegion,
      pyIsDigit, dictGet, lowerPy, charLowerPy, LAN_MAPPING]

/-- C3 witness: the Stockholm example row, through the general
characterisation. -/
theorem c3_witness :
    ("Stockholm", (200 : ℚ)) ∈
      lan_data [⟨"01", some 100⟩, ⟨"1", some 300⟩, ⟨"Stockholm", some 200⟩] := by
  have h1 : contributing
      [⟨"01", some 100⟩, ⟨"1", some 300⟩, ⟨"Stockholm", some 200⟩]
      "Stockholm" = [100, 300, 200] := by
    simp +decide [contributing, resolveRegion, map_to_region, padRegion,
      pyIsDigit, dictGet, lowerPy, charLowerPy, LAN_MAPPING]
  apply (c3_aggregation_mean.1 _ "Stockholm" 200).mpr
  rw [h1]
  exact ⟨by simp, by norm_num⟩

/-- C6: each configured custom group with a non-empty region list and at
least one matching data row produces exactly one output row, holding the
mean over matching rows and the count of configured (not matched)
regions; empty and unmatched groups produce no row; and the
Norra/Södra example yields means 15 and 5. -/
theorem c6_custom_groups :
    (∀ (df : List (String × ℚ)) (groups : List (String × List String))
        (row : CustomGroupRow),
      row ∈ create_custom_region_group df groups ↔
        ∃ g ∈ groups, g.1 = row.custom_group ∧ g.2 ≠ [] ∧
          df.filter (fun r => g.2.contains r.1) ≠ [] ∧
          row.value = ((df.filter (fun r => g.2.contains r.1)).map
            (fun r => r.2)).sum /
            (df.filter (fun r => g.2.contains r.1)).length ∧
          row.regions = String.intercalate ", " g.2 ∧
          row.region_count = g.2.length) ∧
    (∀ (df : List (String × ℚ)) (groups : List (String × List String)),
      (groups.map (fun g => g.1)).Nodup →
      ∀ (g : String) (regions : List String), (g, regions) ∈ groups →
      (create_custom_region_group df groups).countP
          (fun row => row.custom_group = g) =
        if regions ≠ [] ∧ df.filter (fun r => regions.contains r.1) ≠ [] then 1
        else 0) ∧
    (create_custom_region_group
      [("Norrbotten", 10), ("Västerbotten", 20), ("Skåne", 5)]
      [("Norra", ["Norrbotten", "Västerbotten"]), ("Södra", ["Skåne"])] =
      [⟨"Norra", 15, "Norrbotten, Västerbotten", 2⟩,
       ⟨"Södra", 5, "Skåne", 1⟩]) := by
  refine ⟨mem_create_custom, ?_, ?_⟩
  · intro df groups hnodup g regions hmem
    exact create_custom_countP df groups hnodup g regions hmem
  · simp +decide [create_custom_region_group]
    norm_num

/-- C6 witness: the one-group instance ("Södra" over Skåne). -/
theorem c6_witness :
    (create_custom_region_group [("Skåne", (5 : ℚ))]
        [("Södra", ["Skåne"])]).countP
        (fun row => row.custom_group = "Södra") =
      if (["Skåne"] : List String) ≠ [] ∧
          ([("Skåne", (5 : ℚ))].filter
            (fun r => (["Skåne"] : List String).contains r.1)) ≠ [] then 1
      else 0 :=
  c6_custom_groups.2.1 [("Skåne", (5 : ℚ))] [("Södra", ["Skåne"])]
    (by simp) "Södra" ["Skåne"] (by simp)

theorem create_tv_rows (g : GeoFrame) :
    (create_trafikverket_regions g).rows =
      tvLabels.filterMap (fun region_name =>
        if (countyGeometries g.rows region_name).isEmpty then none
        else some ⟨region_name,
          (dictGet TRAFIKVERKET_IDS region_name).getD "",
          unary_union (countyGeometries g.rows region_name)⟩) := by
  simp only [create_trafikverket_regions]
  by_cases h : (tvLabels.filterMap (fun region_name =>
      if (countyGeometries g.rows region_name).isEmpty then none
      else some (⟨region_name,
        (dictGet TRAFIKVERKET_IDS region_name).getD "",
        unary_union (countyGeometries g.rows region_name)⟩ : TvRow))).isEmpty
  · rw [if_pos h]
    exact (List.isEmpty_iff.mp h).symm
  · rw [if_neg h]

/-- C7: for every group label the merger collects the geometries of all
member counties after " län"-stripping and outputs their set-union; a
group appears in the output iff it has at least one matching source
geometry (others are omitted, not emitted as null); and when anything is
produced the source CRS is preserved on the output. -/
theorem c7_boundary_merger (g : GeoFrame) :
    (∀ row ∈ (create_trafikverket_regions g).rows,
      row.geometry = unary_union (countyGeometries g.rows row.name) ∧
      ∀ x : ℕ, x ∈ row.geometry ↔
        ∃ r ∈ g.rows, stripLan r.name ∈ countiesOf row.name ∧
          x ∈ r.geometry) ∧
    (∀ label : String,
      (∃ row ∈ (create_trafikverket_regions g).rows, row.name = label) ↔
        (label ∈ tvLabels ∧ countyGeometries g.rows label ≠ [])) ∧
    ((create_trafikverket_regions g).rows ≠ [] →
      (create_trafikverket_regions g).crs = g.crs) := by
  refine ⟨?_, ?_, ?_⟩
  · intro row hrow
    rw [create_tv_rows] at hrow
    obtain ⟨label, hlabel, hsome⟩ := List.mem_filterMap.mp hrow
    by_cases hnil : (countyGeometries g.rows label).isEmpty
    · rw [if_pos hnil] at hsome; simp at hsome
    · rw [if_neg hnil] at hsome
      simp only [Option.some_inj] at hsome
      subst hsome
      exact ⟨rfl, fun x => mem_merged_geometry g.rows label x⟩
  · intro label
    constructor
    · rintro ⟨row, hrow, rfl⟩
      rw [create_tv_rows] at hrow
      obtain ⟨label', hl', hsome⟩ := List.mem_filterMap.mp hrow
      by_cases hnil : (countyGeometries g.rows label').isEmpty
      · rw [if_pos hnil] at hsome; simp at hsome
      · rw [if_neg hnil] at hsome
        simp only [Option.some_inj] at hsome
        subst hsome
        exact ⟨hl', by simpa using hnil⟩
    · rintro ⟨hmem, hne⟩
      rw [create_tv_rows]
      refine ⟨⟨label, (dictGet TRAFIKVERKET_IDS label).getD "",
        unary_union (countyGeometries g.rows label)⟩, ?_, rfl⟩
      apply List.mem_filterMap.mpr
      exact ⟨label, hmem, by rw [if_neg (by simpa using hne)]⟩
  · intro hne
    rw [create_tv_rows] at hne
    simp only [create_trafikverket_regions]
    rw [if_neg (by simpa using hne)]

/-- C7 witness at a one-row frame with a " län"-suffixed name. -/
theorem c7_witness :
    (create_trafikverket_regions
      ⟨[⟨"Skåne län", {1, 2}⟩], some "EPSG:3006"⟩).crs = some "EPSG:3006" :=
  (c7_boundary_merger ⟨[⟨"Skåne län", {1, 2}⟩], some "EPSG:3006"⟩).2.2
    (by decide)

/-- C8: the boundary merger is order-independent: permuting the input
geometry rows leaves the whole output — and in particular each group's
merged geometry, as a set of points — unchanged. -/
theorem c8_merge_order_independent (rows rows' : List GeoRow)
    (crs : Option String) (h : rows.Perm rows') :
    create_trafikverket_regions ⟨rows, crs⟩ =
      create_trafikverket_regions ⟨rows', crs⟩ ∧
    ∀ label : String,
      unary_union (countyGeometries rows label) =
        unary_union (countyGeometries rows' label) :=
  ⟨create_trafikverket_regions_perm rows rows' crs h,
   fun label => merged_geometry_perm rows rows' h label⟩

/-- C8 witness on a concrete two-row shuffle. -/
theorem c8_witness :
    create_trafikverket_regions
      ⟨[⟨"Skåne", {1}⟩, ⟨"Blekinge", {2}⟩], some "EPSG:3006"⟩ =
    create_trafikverket_regions
      ⟨[⟨"Blekinge", {2}⟩, ⟨"Skåne", {1}⟩], some "EPSG:3006"⟩ :=
  (c8_merge_order_independent [⟨"Skåne", {1}⟩, ⟨"Blekinge", {2}⟩]
    [⟨"Blekinge", {2}⟩, ⟨"Skåne", {1}⟩] (some "EPSG:3006") (by decide)).1

theorem slice_append (l : List String) (a b : ℕ) (hab : a ≤ b) :
    (l.take b).drop a ++ l.drop b = l.drop a := by
  have h1 : (l.take b).drop a = (l.drop a).take (b - a) := by
    rw [List.drop_take]
  have h2 : l.drop b = (l.drop a).drop (b - a) := by
    rw [List.drop_drop]
    congr 1
    omega
  rw [h1, h2, List.take_append_drop]

/-- C9 counterexample: with shuffle outcome `get_available_regions` and
all three `randint(-1, 1)` draws equal to -1, the four groups have sizes
4, 4, 4 and 9 — not within ±1 of each other. -/
theorem c9_counterexample :
    (create_random_groups get_available_regions (-1) (-1) (-1)).map
        (fun g => g.2.length) = [4, 4, 4, 9] ∧
      ¬((9 : Int) - 4 ≤ 1) := by
  exact ⟨by decide, by decide⟩

/-- C9 amended: for every shuffle of the 21 regions and every admissible
triple of `randint(-1, 1)` draws, the operation yields exactly four
groups that together contain every base region exactly once; the first
three groups have between 4 and 6 regions and the last between 3 and 9
(it absorbs the remainder), so sizes need not be within ±1 of each
other. -/
theorem c9_random_partition (shuffled : List String) (v0 v1 v2 : Int)
    (hperm : shuffled.Perm get_available_regions)
    (h0 : -1 ≤ v0 ∧ v0 ≤ 1) (h1 : -1 ≤ v1 ∧ v1 ≤ 1)
    (h2 : -1 ≤ v2 ∧ v2 ≤ 1) :
    (create_random_groups shuffled v0 v1 v2).length = 4 ∧
    ((create_random_groups shuffled v0 v1 v2).map
      (fun g => g.2)).flatten.Perm get_available_regions ∧
    (∃ n0 n1 n2 n3 : ℕ,
      (create_random_groups shuffled v0 v1 v2).map (fun g => g.2.length) =
        [n0, n1, n2, n3] ∧
      (4 ≤ n0 ∧ n0 ≤ 6) ∧ (4 ≤ n1 ∧ n1 ≤ 6) ∧ (4 ≤ n2 ∧ n2 ≤ 6) ∧
      (3 ≤ n3 ∧ n3 ≤ 9)) := by
  have hlen : shuffled.length = 21 := by rw [hperm.length_eq]; decide
  have hp : (shuffled.length : Int) / 4 = 5 := by rw [hlen]; decide
  simp only [create_random_groups, pySlice, hp]
  have ha : ((0 : Int) + 5 + v0).toNat ≤ ((0 : Int) + 5 + v0 + 5 + v1).toNat := by
    omega
  have hb : ((0 : Int) + 5 + v0 + 5 + v1).toNat ≤
      ((0 : Int) + 5 + v0 + 5 + v1 + 5 + v2).toNat := by
    omega
  have hc : ((0 : Int) + 5 + v0 + 5 + v1 + 5 + v2).toNat ≤ 21 := by omega
  refine ⟨rfl, ?_, ?_⟩
  · simp only [List.map_cons, List.map_nil, List.flatten_cons,
      List.flatten_nil, List.append_nil, Int.toNat_zero, List.drop_zero]
    rw [slice_append shuffled _ _ hb, slice_append shuffled _ _ ha,
      List.take_append_drop]
    exact hperm
  · simp only [List.map_cons, List.map_nil]
    refine ⟨_, _, _, _, rfl, ?_, ?_, ?_, ?_⟩ <;>
      simp only [List.length_drop, List.length_take, Int.toNat_zero,
        List.drop_zero, hlen] <;>
      omega

/-- C9 witness: the identity shuffle with zero variations. -/
theorem c9_witness :
    (create_random_groups get_available_regions 0 0 0).length = 4 ∧
      ((create_random_groups get_available_regions 0 0 0).map
        (fun g => g.2)).flatten.Perm get_available_regions :=
  ⟨(c9_random_partition get_available_regions 0 0 0 (List.Perm.refl _)
      (by decide) (by decide) (by decide)).1,
   (c9_random_partition get_available_regions 0 0 0 (List.Perm.refl _)
      (by decide) (by decide) (by decide)).2.1⟩
